import Mathlib

/-!
Verification of the `convert-heic` batch image-conversion utility.

The development shallowly embeds the conversion engine (`src/convert_heic.py`),
its command-line front end, and the name surface of the usage-examples module
(`src/example_usage.py`).  Filesystem directories are embedded as lists of
entries; the external imaging / PDF capabilities are embedded as opaque oracles
supplied to the batch orchestration; rasters are embedded as mode-tagged pixel
functions with rational channel values.  All definitions are translated from
the Python source.
-/

namespace ConvertHeic

/-! ### Lexicographic string order

Python's `sorted` compares strings lexicographically by code point.  We embed
that order as a structural boolean comparison on the underlying character
lists (comparing Unicode scalar values), so that it evaluates by kernel
reduction on concrete inputs. -/

/-- Lexicographic less-or-equal on character lists, by Unicode scalar value.
This is the order Python's `sorted` uses on strings. -/
def charListLe : List Char → List Char → Bool
  | [], _ => true
  | _ :: _, [] => false
  | a :: as, b :: bs =>
    if a.toNat < b.toNat then true
    else if b.toNat < a.toNat then false
    else charListLe as bs

/-- Lexicographic less-or-equal on strings (Python string comparison). -/
def strLe (s t : String) : Bool :=
  charListLe s.data t.data

/-- The proposition form of `strLe`, used as the sorting relation. -/
def strLeP (s t : String) : Prop :=
  strLe s t = true

instance : DecidableRel strLeP := fun s t => by
  unfold strLeP; infer_instance

/-- The larger of two strings in the Python string order (`max` of the two;
the one that sorts last). -/
def strMax (s t : String) : String :=
  if strLe s t then t else s

/-! ### Structural string primitives

Python's `str.upper` / `str.lower` / `endswith` / `startswith` are embedded
as structural character-list operations (the strings the source compares are
ASCII, where `Char.toUpper` / `Char.toLower` agree with Python). -/

/-- Embeds Python `str.upper()` on the ASCII strings the source uses. -/
def strToUpper (s : String) : String :=
  ⟨s.data.map Char.toUpper⟩

/-- Embeds Python `str.lower()` on the ASCII strings the source uses. -/
def strToLower (s : String) : String :=
  ⟨s.data.map Char.toLower⟩

/-- Whether the first character list is a prefix of the second. -/
def charPrefix : List Char → List Char → Bool
  | [], _ => true
  | _ :: _, [] => false
  | a :: as, b :: bs => a == b && charPrefix as bs

/-- Whether the first character list is a suffix of the second
(Python `str.endswith`). -/
def charSuffix (suf l : List Char) : Bool :=
  charPrefix suf.reverse l.reverse

/-! ### Filesystem model

A directory is a list of entries.  Each entry has a name (no `/` inside, as
delivered by `os.listdir`) and a flag recording whether it is a subdirectory.
Entries in the output directory additionally carry file content, standing for
the bytes on disk. -/

/-- A directory entry as seen by `glob` / `os.listdir`: a name plus whether
the entry is a subdirectory. -/
structure Entry where
  name : String
  isDir : Bool
  deriving DecidableEq

/-- An output-directory entry: name, directory flag, and file content
(the bytes on disk, opaque to the model). -/
structure OutEntry where
  name : String
  isDir : Bool
  content : String
  deriving DecidableEq

/-- Embeds `os.path.join(folder, name)` for a folder without a trailing
separator, as used when globbing and when building output paths. -/
def joinPath (folder name : String) : String :=
  folder ++ "/" ++ name

/-- Embeds `os.path.basename`: the part of the path after the last `/`. -/
def basename (path : String) : String :=
  ⟨(path.data.reverse.takeWhile (fun ch => ch ≠ '/')).reverse⟩

/-- Index of the last occurrence of a character in a list, if any. -/
def lastIdxOf (c : Char) : List Char → Option Nat
  | [] => none
  | a :: rest =>
    match lastIdxOf c rest with
    | some i => some (i + 1)
    | none => if a = c then some 0 else none

/-- Embeds `os.path.splitext(name)[0]` for a bare filename (no separators):
drop the extension starting at the last dot, unless every character before
that dot is itself a dot (CPython's leading-dot rule, so `.bashrc` keeps its
name). -/
def stem (name : String) : String :=
  match lastIdxOf '.' name.data with
  | none => name
  | some i =>
    if (name.data.take i).any (fun ch => ch ≠ '.') then ⟨name.data.take i⟩
    else name

/-! ### Image file discovery (`get_image_files`) -/

/-- The ten glob patterns of `get_image_files`, represented by the extension
suffix each pattern `*.<ext>` requires. -/
def ext_patterns : List String :=
  [".heic", ".HEIC", ".heif", ".HEIF",
   ".jpg", ".JPG", ".jpeg", ".JPEG",
   ".png", ".PNG"]

/-- Whether a directory entry name matches the glob pattern `*.<suffix>`:
`fnmatch` is an exact (case-sensitive) suffix match, and `glob` never matches
names starting with a dot against a `*` pattern. -/
def matchesPattern (suffix name : String) : Bool :=
  !charPrefix ['.'] name.data && charSuffix suffix.data name.data

/-- One `glob.glob(os.path.join(source_folder, pattern))` call: the full paths
of the directory entries whose names match the pattern.  `glob` matches names
only — it never checks that an entry is a regular file. -/
def globMatches (dir : List Entry) (source_folder suffix : String) : List String :=
  (dir.filter (fun e => matchesPattern suffix e.name)).map
    (fun e => joinPath source_folder e.name)

/-- Whether a name matches at least one of the ten patterns. -/
def matchesAny (name : String) : Bool :=
  ext_patterns.any (fun suffix => matchesPattern suffix name)

/-- Embeds `get_image_files`: accumulate the glob results of every pattern,
then `sorted(list(set(...)))` — deduplicate and sort ascending by full path. -/
def get_image_files (dir : List Entry) (source_folder : String) : List String :=
  ((ext_patterns.flatMap (fun suffix => globMatches dir source_folder suffix)).dedup).insertionSort
    strLeP

/-! ### Output folder clearing (`clear_output_folder`) -/

/-- The extension list `extensions_to_remove` of `clear_output_folder`. -/
def extensions_to_remove : List String :=
  [".png", ".jpg", ".jpeg", ".pdf", ".PNG", ".JPG", ".JPEG", ".PDF"]

/-- Whether one loop iteration of `clear_output_folder` deletes the entry:
directories are skipped, a file named `readme.md` (case-insensitively) is
skipped when `keep_readme` is set, and otherwise the file is removed when its
lower-cased name ends with one of the tracked extensions. -/
def shouldRemove (keep_readme : Bool) (e : OutEntry) : Bool :=
  !e.isDir &&
  !(keep_readme && strToLower e.name == "readme.md") &&
  extensions_to_remove.any
    (fun ext => charSuffix (strToLower ext).data (strToLower e.name).data)

/-- Embeds the deletion loop of `clear_output_folder`: returns the remaining
directory contents and the number of removed files.  `os.remove` is modelled
as succeeding (the source catches and logs per-file removal failures; the
filesystem refusing a deletion is outside the embedded state). -/
def clearLoop (keep_readme : Bool) : List OutEntry → List OutEntry × Nat
  | [] => ([], 0)
  | e :: rest =>
    let r := clearLoop keep_readme rest
    if shouldRemove keep_readme e then (r.1, r.2 + 1) else (e :: r.1, r.2)

/-- Embeds `clear_output_folder` on an existing output directory: the
remaining contents and the removed-file count it logs. -/
def clear_output_folder (dir : List OutEntry) (keep_readme : Bool := true) :
    List OutEntry × Nat :=
  clearLoop keep_readme dir

/-! ### Batch conversion (`convert_images`) and its per-file operations

The decode / encode / PDF-render calls go to the external imaging and PDF
libraries; the embedding abstracts them as boolean success oracles plus an
opaque rendering function giving the bytes written for a source file.  The
control flow around them is translated from the source. -/

/-- Conversion statistics returned by `convert_images`. -/
structure Stats where
  total : Nat
  successful : Nat
  failed : Nat
  deriving DecidableEq

/-- The external-capability boundary: whether `convert_image_to_format`
yields an image for a source path (given format and quality), whether
`save_as_image` succeeds, whether `convert_image_to_pdf` succeeds (given the
page size), and the output bytes produced for a source file. -/
structure Conv where
  decodeOk : String → String → Int → Bool
  saveOk : String → String → Int → Bool
  pdfOk : String → String → Bool
  render : String → String

/-- Embeds the output-extension choice in the `convert_images` loop. -/
def output_ext (output_format : String) : String :=
  if strToUpper output_format = "PDF" then ".pdf"
  else if strToUpper output_format = "JPG" ∨ strToUpper output_format = "JPEG" then
    ".jpg"
  else ".png"

/-- Embeds one job's success: for PDF targets `convert_image_to_pdf` is
invoked directly; otherwise `convert_image_to_format` decodes and, only if an
image came back, `save_as_image` runs — a failed decode counts as a failed
job without attempting a save. -/
def jobOutcome (env : Conv) (output_format : String) (quality : Int)
    (page_size : String) (image_file : String) : Bool :=
  if strToUpper output_format = "PDF" then env.pdfOk image_file page_size
  else if env.decodeOk image_file output_format quality then
    env.saveOk image_file output_format quality
  else false

/-- Writes a file into the output directory: an existing entry with the same
name is replaced (a later write overwrites an earlier one). -/
def writeFile (dir : List OutEntry) (name content : String) : List OutEntry :=
  dir.filter (fun e => e.name ≠ name) ++ [⟨name, false, content⟩]

/-- Embeds the per-file loop of `convert_images`: processes the discovered
files in order, deriving each output name as `<base_name><ext>`, writing the
rendered output on success, and tallying successes and failures. -/
def batchLoop (env : Conv) (output_format : String) (quality : Int)
    (page_size : String) : List String → Nat × Nat × List OutEntry →
    Nat × Nat × List OutEntry
  | [], acc => acc
  | image_file :: rest, (successful, failed, out) =>
    let base_name := stem (basename image_file)
    let outName := base_name ++ output_ext output_format
    let ok := jobOutcome env output_format quality page_size image_file
    let out2 := if ok then writeFile out outName (env.render image_file) else out
    batchLoop env output_format quality page_size rest
      (if ok then successful + 1 else successful,
       if ok then failed else failed + 1, out2)

/-- Embeds `convert_images`: optionally clear the output directory, discover
the source files, return zero statistics when none are found, and otherwise
run the per-file loop.  `src_dir` is the source directory's entry list,
`out0` the output directory's prior contents. -/
def convert_images (env : Conv) (src_dir : List Entry) (source_folder : String)
    (out0 : List OutEntry) (output_format : String := "PNG")
    (quality : Int := 95) (page_size : String := "LETTER")
    (clear_output : Bool := true) : Stats × List OutEntry :=
  let out1 := if clear_output then (clear_output_folder out0).1 else out0
  let image_files := get_image_files src_dir source_folder
  if image_files.isEmpty then (⟨0, 0, 0⟩, out1)
  else
    let r := batchLoop env output_format quality page_size image_files (0, 0, out1)
    (⟨image_files.length, r.1, r.2.1⟩, r.2.2)

/-! ### PDF layout (`convert_image_to_pdf`) -/

/-- Embeds the scale / placement computation of `convert_image_to_pdf` over
exact rationals: `width_ratio`, `height_ratio`, `scale` with its `0.9` margin
factor, the scaled dimensions, and the centering offsets.  Returned as
`(scale, scaled_width, scaled_height, x_offset, y_offset)`. -/
def pdf_layout (img_width img_height page_width page_height : ℚ) :
    ℚ × ℚ × ℚ × ℚ × ℚ :=
  let width_ratio := page_width / img_width
  let height_ratio := page_height / img_height
  let scale := min width_ratio height_ratio * (9 / 10)
  let scaled_width := img_width * scale
  let scaled_height := img_height * scale
  let x_offset := (page_width - scaled_width) / 2
  let y_offset := (page_height - scaled_height) / 2
  (scale, scaled_width, scaled_height, x_offset, y_offset)

/-- The reportlab `letter` page size in points. -/
def letterSize : ℚ × ℚ := (612, 792)

/-- The reportlab `A4` page size in points (210mm × 297mm at 72 dpi). -/
def a4Size : ℚ × ℚ := (75600 / 127, 106920 / 127)

/-- Embeds the page-size selection of `convert_image_to_pdf`. -/
def pdfPageSize (page_size : String) : ℚ × ℚ :=
  if strToUpper page_size = "A4" then a4Size else letterSize

/-! ### CLI front end (`main`) -/

/-- The argparse `choices` list of the `--format` flag, exactly as written in
the source. -/
def format_choices : List String :=
  ["pdf", "png", "jpg", "jpeg", "PDF", "PNG", "JPG", "JPEG"]

/-- The argparse `choices` list of the `--page-size` flag. -/
def page_size_choices : List String :=
  ["letter", "a4", "LETTER", "A4"]

/-- Whether argparse accepts a value for `--format`: `choices` membership is
an exact string match. -/
def formatAccepted (v : String) : Bool :=
  format_choices.contains v

/-- Whether argparse accepts a value for `--page-size`. -/
def pageSizeAccepted (v : String) : Bool :=
  page_size_choices.contains v

/-- Outcome of a `main` run after argument parsing: the validation that
failed (each exits with status 1 before touching any file), or the completed
conversion carrying the statistics and final output directory. -/
inductive MainOutcome where
  | qualityError
  | sourceMissing
  | sourceNotDir
  | completed (stats : Stats) (out : List OutEntry)
  deriving DecidableEq

/-- Embeds the body of `main` after argument parsing (logging setup elided —
it only creates the log file): validate quality, then the source path, then
run `convert_images`.  `sourceExists` / `sourceIsDir` report what
`os.path.exists` / `os.path.isdir` see. -/
def mainRun (env : Conv) (quality : Int) (sourceExists sourceIsDir : Bool)
    (src_dir : List Entry) (source_folder : String) (out0 : List OutEntry)
    (output_format : String) (page_size : String) (no_clear : Bool) :
    MainOutcome :=
  if quality < 1 ∨ quality > 100 then .qualityError
  else if !sourceExists then .sourceMissing
  else if !sourceIsDir then .sourceNotDir
  else
    let r := convert_images env src_dir source_folder out0 output_format
      quality page_size (!no_clear)
    .completed r.1 r.2

/-- The process exit status `main` produces for an outcome: validation
failures exit 1, a completed run exits 1 exactly when some file failed. -/
def exitCode : MainOutcome → Nat
  | .qualityError => 1
  | .sourceMissing => 1
  | .sourceNotDir => 1
  | .completed stats _ => if stats.failed > 0 then 1 else 0

/-! ### Module name surfaces (`convert_heic` vs `example_usage`)

The usage-examples module is reachable only through its import of the engine
module; the import list and the engine's defined names are embedded verbatim
so the reference can be checked. -/

/-- The top-level function names defined by `src/convert_heic.py`. -/
def convert_heic_defs : List String :=
  ["setup_logging", "clear_output_folder", "get_image_files",
   "convert_image_to_format", "save_as_image", "convert_image_to_pdf",
   "convert_images", "main"]

/-- The names `src/example_usage.py` imports from `convert_heic`
(its `from convert_heic import (...)` statement, executed before any menu
selection can run a scenario). -/
def example_usage_imports : List String :=
  ["convert_images", "convert_heic_to_image", "convert_heic_to_pdf",
   "save_as_image", "get_heic_files", "setup_logging"]

/-- A concrete external-capability environment whose every operation
succeeds and whose rendering returns the source path; used to instantiate
universally-quantified statements at a specific input. -/
def envAll : Conv :=
  ⟨fun _ _ _ => true, fun _ _ _ => true, fun _ _ => true, fun p => p⟩

/-- A concrete output directory holding a conversion artifact, a README, a
subdirectory and an untracked file; used to instantiate
universally-quantified statements at a specific input. -/
def sampleOut : List OutEntry :=
  [⟨"a.png", false, "x"⟩, ⟨"README.md", false, "keep"⟩,
   ⟨"sub", true, ""⟩, ⟨"notes.txt", false, "t"⟩]

/-! ### Raster model and JPEG mode normalization (`convert_image_to_format`)

A decoded PIL image is a mode-tagged pixel grid.  Channel values are exact
rationals on the 0–255 scale (PIL stores 8-bit channels; exact arithmetic
avoids modelling its rounding, which no claim depends on).  The modes the
source branches on are embedded: `RGB`, `RGBA`, `LA`, `L`, and palette `P`
(a palette image carries an index grid and an RGBA palette — PIL expands
`P → RGBA` through the palette, with alpha from transparency info). -/

/-- A decoded raster, tagged by PIL color mode. -/
inductive Raster where
  | rgb (w h : Nat) (px : Nat → Nat → ℚ × ℚ × ℚ)
  | rgba (w h : Nat) (px : Nat → Nat → ℚ × ℚ × ℚ × ℚ)
  | la (w h : Nat) (px : Nat → Nat → ℚ × ℚ)
  | l (w h : Nat) (px : Nat → Nat → ℚ)
  | p (w h : Nat) (idx : Nat → Nat → Nat) (palette : Nat → ℚ × ℚ × ℚ × ℚ)

/-- The PIL mode string of a raster (`img.mode`). -/
def Raster.mode : Raster → String
  | .rgb .. => "RGB"
  | .rgba .. => "RGBA"
  | .la .. => "LA"
  | .l .. => "L"
  | .p .. => "P"

/-- Pixel width (`img.size[0]`). -/
def Raster.w : Raster → Nat
  | .rgb w _ _ => w
  | .rgba w _ _ => w
  | .la w _ _ => w
  | .l w _ _ => w
  | .p w _ _ _ => w

/-- Pixel height (`img.size[1]`). -/
def Raster.h : Raster → Nat
  | .rgb _ h _ => h
  | .rgba _ h _ => h
  | .la _ h _ => h
  | .l _ h _ => h
  | .p _ h _ _ => h

/-- PIL `img.convert('RGBA')`: palette images look their pixels up in the
palette (which carries alpha); greyscale replicates luma; `RGB` gains an
opaque alpha channel. -/
def Raster.convertRGBA : Raster → Raster
  | .rgb w h px => .rgba w h (fun x y => ((px x y).1, (px x y).2.1, (px x y).2.2, 255))
  | .rgba w h px => .rgba w h px
  | .la w h px => .rgba w h (fun x y => ((px x y).1, (px x y).1, (px x y).1, (px x y).2))
  | .l w h px => .rgba w h (fun x y => (px x y, px x y, px x y, 255))
  | .p w h idx palette => .rgba w h (fun x y => palette (idx x y))

/-- PIL conversion of a raster to `RGB` color values (alpha dropped, luma
replicated); used both by `img.convert('RGB')` and when `paste` adapts the
pasted image to an `RGB` background. -/
def Raster.toRGBPx : Raster → Nat → Nat → ℚ × ℚ × ℚ
  | .rgb _ _ px, x, y => px x y
  | .rgba _ _ px, x, y => ((px x y).1, (px x y).2.1, (px x y).2.2.1)
  | .la _ _ px, x, y => ((px x y).1, (px x y).1, (px x y).1)
  | .l _ _ px, x, y => (px x y, px x y, px x y)
  | .p _ _ idx palette, x, y =>
    ((palette (idx x y)).1, (palette (idx x y)).2.1, (palette (idx x y)).2.2.1)

/-- PIL `img.convert('RGB')`. -/
def Raster.convertRGB (img : Raster) : Raster :=
  .rgb img.w img.h img.toRGBPx

/-- The last band of `img.split()` — for `RGBA` and `LA` this is the alpha
channel, which the source uses as the paste mask. -/
def Raster.lastBand : Raster → Nat → Nat → ℚ
  | .rgb _ _ px, x, y => (px x y).2.2
  | .rgba _ _ px, x, y => (px x y).2.2.2
  | .la _ _ px, x, y => (px x y).2
  | .l _ _ px, x, y => px x y
  | .p _ _ idx _, x, y => (idx x y : ℚ)

/-- The alpha value a source pixel carries: the alpha channel for `RGBA` and
`LA`, the palette alpha for `P`, and fully opaque otherwise. -/
def Raster.srcAlpha : Raster → Nat → Nat → ℚ
  | .rgba _ _ px, x, y => (px x y).2.2.2
  | .la _ _ px, x, y => (px x y).2
  | .p _ _ idx palette, x, y => (palette (idx x y)).2.2.2
  | .rgb .., _, _ => 255
  | .l .., _, _ => 255

/-- One channel of PIL's masked paste onto a background value: with alpha
mask `a` (0–255), the result is `bg + (src - bg) * a / 255`. -/
def blendChannel (bg src a : ℚ) : ℚ :=
  bg + (src - bg) * a / 255

/-- Embeds `background.paste(img, mask=...)` for an opaque white `RGB`
background of size `w × h`: the pasted image is adapted to `RGB`, and each
channel is blended against white through the mask; without a mask the paste
copies the source outright. -/
def pasteOnWhite (w h : Nat) (img : Raster) (mask : Option (Nat → Nat → ℚ)) :
    Raster :=
  .rgb w h (fun x y =>
    let s := img.toRGBPx x y
    match mask with
    | none => s
    | some m =>
      (blendChannel 255 s.1 (m x y), blendChannel 255 s.2.1 (m x y),
       blendChannel 255 s.2.2 (m x y)))

/-- Embeds the mode-normalization block of `convert_image_to_format` that
runs for JPEG-family targets: alpha-carrying or palette modes are pasted onto
an opaque white background (palette images converted to `RGBA` first, so the
reassigned `img` has a mask), any other non-`RGB` mode is converted to
`RGB`. -/
def normalizeForJPEG (img0 : Raster) : Raster :=
  if img0.mode = "RGBA" ∨ img0.mode = "LA" ∨ img0.mode = "P" then
    let img := if img0.mode = "P" then img0.convertRGBA else img0
    pasteOnWhite img0.w img0.h img
      (if img.mode = "RGBA" ∨ img.mode = "LA" then some img.lastBand else none)
  else if img0.mode ≠ "RGB" then img0.convertRGB
  else img0

/-- Embeds `convert_image_to_format` on an already-decoded raster (the
`Image.open` decode is the external boundary): the EXIF blob is extracted
unchanged, and the raster is mode-normalized only when the requested format
is JPEG-family. -/
def convert_image_to_format (img : Raster) (exif_data : Option (List Nat))
    (output_format : String := "PNG") : Raster × Option (List Nat) :=
  if strToUpper output_format = "JPG" ∨ strToUpper output_format = "JPEG" then
    (normalizeForJPEG img, exif_data)
  else (img, exif_data)

/-! ## Theorems -/

theorem charListLe_total (a b : List Char) :
    charListLe a b = true ∨ charListLe b a = true := by
  induction a generalizing b with
  | nil => left; rfl
  | cons x xs ih =>
    cases b with
    | nil => right; rfl
    | cons y ys =>
      rcases Nat.lt_trichotomy x.toNat y.toNat with h | h | h
      · left; simp [charListLe, h]
      · have hxy : ¬ x.toNat < y.toNat := by omega
        have hyx : ¬ y.toNat < x.toNat := by omega
        rcases ih ys with h2 | h2
        · left; simp [charListLe, hxy, hyx, h2]
        · right; simp [charListLe, hxy, hyx, h2]
      · right; simp [charListLe, h]

theorem charListLe_trans {a b c : List Char}
    (h1 : charListLe a b = true) (h2 : charListLe b c = true) :
    charListLe a c = true := by
  induction a generalizing b c with
  | nil => rfl
  | cons x xs ih =>
    cases b with
    | nil => simp [charListLe] at h1
    | cons y ys =>
      cases c with
      | nil => simp [charListLe] at h2
      | cons z zs =>
        by_cases hxy : x.toNat < y.toNat
        · by_cases hyz : y.toNat < z.toNat
          · have : x.toNat < z.toNat := Nat.lt_trans hxy hyz
            simp [charListLe, this]
          · by_cases hzy : z.toNat < y.toNat
            · simp [charListLe, hyz, hzy] at h2
            · have : x.toNat < z.toNat := by omega
              simp [charListLe, this]
        · by_cases hyx : y.toNat < x.toNat
          · simp [charListLe, hxy, hyx] at h1
          · by_cases hyz : y.toNat < z.toNat
            · have : x.toNat < z.toNat := by omega
              simp [charListLe, this]
            · by_cases hzy : z.toNat < y.toNat
              · simp [charListLe, hyz, hzy] at h2
              · have hxz : ¬ x.toNat < z.toNat := by omega
                have hzx : ¬ z.toNat < x.toNat := by omega
                simp only [charListLe, if_neg hxy, if_neg hyx] at h1
                simp only [charListLe, if_neg hyz, if_neg hzy] at h2
                simp only [charListLe, if_neg hxz, if_neg hzx]
                exact ih h1 h2

theorem char_toNat_inj {x y : Char} (h : x.toNat = y.toNat) : x = y :=
  Char.ext_iff.mpr (UInt32.ext h)

theorem charListLe_antisymm {a b : List Char}
    (h1 : charListLe a b = true) (h2 : charListLe b a = true) : a = b := by
  induction a generalizing b with
  | nil =>
    cases b with
    | nil => rfl
    | cons y ys => simp [charListLe] at h2
  | cons x xs ih =>
    cases b with
    | nil => simp [charListLe] at h1
    | cons y ys =>
      by_cases hxy : x.toNat < y.toNat
      · have : ¬ y.toNat < x.toNat := by omega
        simp [charListLe, this, hxy] at h2
      · by_cases hyx : y.toNat < x.toNat
        · simp [charListLe, hxy, hyx] at h1
        · simp only [charListLe, if_neg hxy, if_neg hyx] at h1
          simp only [charListLe, if_neg hyx, if_neg hxy] at h2
          have hc : x = y := char_toNat_inj (by omega)
          rw [hc, ih h1 h2]

instance : IsTotal String strLeP :=
  ⟨fun s t => charListLe_total s.data t.data⟩

instance : IsTrans String strLeP :=
  ⟨fun _ _ _ h1 h2 => charListLe_trans h1 h2⟩

instance : IsAntisymm String strLeP :=
  ⟨fun _ _ h1 h2 => String.toList_inj.mp (charListLe_antisymm h1 h2)⟩

theorem strLeP_total (s t : String) : strLeP s t ∨ strLeP t s :=
  charListLe_total s.data t.data

theorem strMax_choice (s t : String) : strMax s t = s ∨ strMax s t = t := by
  unfold strMax; split <;> simp

/-! ### Discovery lemmas shared by several claims -/

theorem sorted_get_image_files (dir : List Entry) (source_folder : String) :
    (get_image_files dir source_folder).Sorted strLeP :=
  List.sorted_insertionSort strLeP _

theorem nodup_get_image_files (dir : List Entry) (source_folder : String) :
    (get_image_files dir source_folder).Nodup :=
  (List.perm_insertionSort strLeP _).nodup_iff.mpr (List.nodup_dedup _)

theorem mem_get_image_files {dir : List Entry} {source_folder p : String} :
    p ∈ get_image_files dir source_folder ↔
      ∃ e ∈ dir, matchesAny e.name = true ∧ p = joinPath source_folder e.name := by
  unfold get_image_files
  rw [List.mem_insertionSort, List.mem_dedup, List.mem_flatMap]
  simp only [globMatches, List.mem_map, List.mem_filter, matchesAny,
    List.any_eq_true]
  constructor
  · rintro ⟨suffix, hs, e, ⟨he, hm⟩, rfl⟩
    exact ⟨e, he, ⟨suffix, hs, hm⟩, rfl⟩
  · rintro ⟨e, he, ⟨suffix, hs, hm⟩, rfl⟩
    exact ⟨suffix, hs, e, ⟨he, hm⟩, rfl⟩

/-- C3: for any directory contents, discovery returns exactly the full paths
of the entries whose names match a supported-extension pattern, each unique
path exactly once (no duplicates), in ascending lexical order by full
path. -/
theorem c3_discovery_determinism (dir : List Entry) (source_folder : String) :
    (∀ p, p ∈ get_image_files dir source_folder ↔
        ∃ e ∈ dir, matchesAny e.name = true ∧ p = joinPath source_folder e.name) ∧
    (get_image_files dir source_folder).Nodup ∧
    (get_image_files dir source_folder).Sorted strLeP :=
  ⟨fun _ => mem_get_image_files, nodup_get_image_files dir source_folder,
    sorted_get_image_files dir source_folder⟩

/-- C10: discovery never checks that a matched entry is a regular file — the
result is unchanged when every entry is marked as a directory, and in
particular a subdirectory named `album.png` is returned as a convertible
file. -/
theorem c10_discovery_ignores_isdir (dir : List Entry) (source_folder : String) :
    (get_image_files (dir.map (fun e => ⟨e.name, true⟩)) source_folder =
      get_image_files dir source_folder) ∧
    joinPath source_folder "album.png" ∈
      get_image_files [⟨"album.png", true⟩] source_folder := by
  constructor
  · have hg : ∀ suffix, globMatches (dir.map (fun e => ⟨e.name, true⟩))
        source_folder suffix = globMatches dir source_folder suffix := by
      intro suffix
      unfold globMatches
      rw [List.filter_map, List.map_map]
      rfl
    unfold get_image_files
    simp only [hg]
  · exact mem_get_image_files.mpr
      ⟨⟨"album.png", true⟩, List.mem_singleton.mpr rfl, by decide, rfl⟩

/-! ### Batch statistics -/

theorem batchLoop_counts (env : Conv) (output_format : String) (quality : Int)
    (page_size : String) (files : List String) (s f : Nat)
    (out : List OutEntry) :
    (batchLoop env output_format quality page_size files (s, f, out)).1 +
      (batchLoop env output_format quality page_size files (s, f, out)).2.1 =
    s + f + files.length := by
  induction files generalizing s f out with
  | nil => simp [batchLoop]
  | cons file rest ih =>
    by_cases hok : jobOutcome env output_format quality page_size file = true
    · simp only [batchLoop, hok, if_pos]
      rw [ih]
      simp only [List.length_cons]
      omega
    · simp only [batchLoop, Bool.not_eq_true] at hok ⊢
      simp only [hok, Bool.false_eq_true, if_false]
      rw [ih]
      simp only [List.length_cons]
      omega

/-- C2: for every batch run — any source directory contents, output
directory contents, target format, quality, page size, clear flag, and any
behavior of the external conversion capabilities — the returned statistics
satisfy `successful + failed = total`, and `total` equals the length of the
discovery operation's result for that source directory. -/
theorem c2_batch_statistics (env : Conv) (src_dir : List Entry)
    (source_folder : String) (out0 : List OutEntry) (output_format : String)
    (quality : Int) (page_size : String) (clear_output : Bool) :
    ((convert_images env src_dir source_folder out0 output_format quality
        page_size clear_output).1.successful +
      (convert_images env src_dir source_folder out0 output_format quality
        page_size clear_output).1.failed =
      (convert_images env src_dir source_folder out0 output_format quality
        page_size clear_output).1.total) ∧
    (convert_images env src_dir source_folder out0 output_format quality
        page_size clear_output).1.total =
      (get_image_files src_dir source_folder).length := by
  unfold convert_images
  by_cases hempty : (get_image_files src_dir source_folder).isEmpty = true
  · rw [List.isEmpty_iff] at hempty
    simp [hempty]
  · simp only [hempty, Bool.false_eq_true, if_false]
    refine ⟨?_, trivial⟩
    have := batchLoop_counts env output_format quality page_size
      (get_image_files src_dir source_folder) 0 0
      (if clear_output then (clear_output_folder out0).1 else out0)
    simpa using this

/-! ### Module name surface -/

/-- C1 (evaluating the code at the failing input): three of the names the
examples module imports from the engine — `convert_heic_to_image`,
`convert_heic_to_pdf`, `get_heic_files` — are not defined in the engine
module (which defines `convert_image_to_format`, `convert_image_to_pdf`,
`get_image_files` instead), so the `from convert_heic import ...` statement,
which runs before any menu selection, cannot resolve them. -/
theorem c1_example_usage_import_mismatch :
    example_usage_imports.filter
        (fun n => !(convert_heic_defs.contains n)) =
      ["convert_heic_to_image", "convert_heic_to_pdf", "get_heic_files"] ∧
    "get_heic_files" ∉ convert_heic_defs ∧
    "convert_heic_to_image" ∉ convert_heic_defs ∧
    "convert_heic_to_pdf" ∉ convert_heic_defs ∧
    "get_image_files" ∈ convert_heic_defs ∧
    "convert_image_to_format" ∈ convert_heic_defs ∧
    "convert_image_to_pdf" ∈ convert_heic_defs := by
  decide

/-! ### PDF layout -/

/-- C5: for every PDF conversion of an image of width `W` and height `H`
onto a page of width `PW` and height `PH`, the computed scale equals
`min(PW/W, PH/H) * 0.9`, the rendered dimensions equal `W*scale` and
`H*scale`, and the offsets center the image:
`x_offset = (PW - W*scale)/2`, `y_offset = (PH - H*scale)/2`. -/
theorem c5_pdf_layout (W H PW PH : ℚ) :
    (pdf_layout W H PW PH).1 = min (PW / W) (PH / H) * (9 / 10) ∧
    (pdf_layout W H PW PH).2.1 = W * (pdf_layout W H PW PH).1 ∧
    (pdf_layout W H PW PH).2.2.1 = H * (pdf_layout W H PW PH).1 ∧
    (pdf_layout W H PW PH).2.2.2.1 =
      (PW - (pdf_layout W H PW PH).2.1) / 2 ∧
    (pdf_layout W H PW PH).2.2.2.2 =
      (PH - (pdf_layout W H PW PH).2.2.1) / 2 :=
  ⟨rfl, rfl, rfl, rfl, rfl⟩

/-! ### CLI flag value matching -/

/-- C7 (counterexample): argparse `choices` matching is exact, so the
mixed-case spellings the claim says are accepted — `Pdf` for the format
flag, `Letter` for the page-size flag — are in fact rejected. -/
theorem c7_counterexample :
    formatAccepted "Pdf" = false ∧ pageSizeAccepted "Letter" = false := by
  decide

/-- C7 (amended): the format flag accepts exactly the all-lowercase and
all-uppercase spellings of pdf/png/jpg/jpeg and the page-size flag those of
letter/a4; every accepted value resolves by uppercasing to one of the four
format targets (respectively two page sizes), and both casings of a value
are accepted — but mixed-case spellings are rejected. -/
theorem c7_choices_two_casings :
    (∀ v, formatAccepted v = true →
        strToUpper v ∈ ["PDF", "PNG", "JPG", "JPEG"] ∧
        (v = strToLower v ∨ v = strToUpper v)) ∧
    (∀ v, pageSizeAccepted v = true →
        strToUpper v ∈ ["LETTER", "A4"] ∧
        (v = strToLower v ∨ v = strToUpper v)) ∧
    (∀ w, w ∈ ["pdf", "png", "jpg", "jpeg"] →
        formatAccepted w = true ∧ formatAccepted (strToUpper w) = true) ∧
    (∀ w, w ∈ ["letter", "a4"] →
        pageSizeAccepted w = true ∧ pageSizeAccepted (strToUpper w) = true) := by
  refine ⟨fun v h => ?_, fun v h => ?_, fun w h => ?_, fun w h => ?_⟩
  · simp only [formatAccepted, format_choices] at h
    simp at h
    rcases h with rfl | rfl | rfl | rfl | rfl | rfl | rfl | rfl <;> decide
  · simp only [pageSizeAccepted, page_size_choices] at h
    simp at h
    rcases h with rfl | rfl | rfl | rfl <;> decide
  · simp only [List.mem_cons, List.not_mem_nil, or_false] at h
    rcases h with rfl | rfl | rfl | rfl <;> decide
  · simp only [List.mem_cons, List.not_mem_nil, or_false] at h
    rcases h with rfl | rfl <;> decide

/-- Witness for the amended C7 at the concrete value `pdf`. -/
theorem c7_choices_two_casings_witness :
    strToUpper "pdf" ∈ ["PDF", "PNG", "JPG", "JPEG"] ∧
    formatAccepted "pdf" = true ∧ pageSizeAccepted "letter" = true :=
  ⟨(c7_choices_two_casings.1 "pdf" (by decide)).1,
   (c7_choices_two_casings.2.2.1 "pdf" (by decide)).1,
   (c7_choices_two_casings.2.2.2 "letter" (by decide)).1⟩

/-! ### CLI quality validation -/

/-- C8: a CLI invocation with quality outside 1–100 ends in the
quality-validation outcome — the run stops with exit status 1 before the
source directory is consulted and before `convert_images` is reached (the
`qualityError` outcome carries no statistics and no output state) — while
quality 1 and quality 100 pass validation and the run proceeds to the
conversion itself. -/
theorem c8_quality_boundary (env : Conv) (quality : Int)
    (sourceExists sourceIsDir : Bool) (src_dir : List Entry)
    (source_folder : String) (out0 : List OutEntry)
    (output_format page_size : String) (no_clear : Bool) :
    ((quality < 1 ∨ quality > 100) →
      mainRun env quality sourceExists sourceIsDir src_dir source_folder out0
          output_format page_size no_clear = .qualityError ∧
      exitCode (mainRun env quality sourceExists sourceIsDir src_dir
          source_folder out0 output_format page_size no_clear) = 1) ∧
    ((quality = 1 ∨ quality = 100) →
      mainRun env quality true true src_dir source_folder out0 output_format
          page_size no_clear =
        .completed
          (convert_images env src_dir source_folder out0 output_format quality
            page_size (!no_clear)).1
          (convert_images env src_dir source_folder out0 output_format quality
            page_size (!no_clear)).2) := by
  constructor
  · intro h
    constructor
    · simp only [mainRun, if_pos h]
    · simp only [mainRun, if_pos h]
      rfl
  · intro h
    have hq : ¬ (quality < 1 ∨ quality > 100) := by rcases h with rfl | rfl <;> decide
    simp only [mainRun, if_neg hq, Bool.not_true, Bool.false_eq_true, if_false]

/-- Witness for C8: quality 0 and 101 stop at validation with exit status 1;
quality 1 and 100 reach the conversion (on an empty source directory it
returns zero statistics). -/
theorem c8_quality_boundary_witness :
    mainRun envAll 0 true true [] "src" [] "png" "letter" false =
        MainOutcome.qualityError ∧
    exitCode (mainRun envAll 101 true true [] "src" [] "png" "letter" false) = 1 ∧
    mainRun envAll 1 true true [] "src" [] "png" "letter" false =
      MainOutcome.completed ⟨0, 0, 0⟩ [] ∧
    mainRun envAll 100 true true [] "src" [] "png" "letter" false =
      MainOutcome.completed ⟨0, 0, 0⟩ [] :=
  ⟨((c8_quality_boundary envAll 0 true true [] "src" [] "png" "letter" false).1
      (by decide)).1,
   ((c8_quality_boundary envAll 101 true true [] "src" [] "png" "letter"
      false).1 (by decide)).2,
   by
     rw [(c8_quality_boundary envAll 1 true true [] "src" [] "png" "letter"
       false).2 (Or.inl rfl)]
     rfl,
   by
     rw [(c8_quality_boundary envAll 100 true true [] "src" [] "png" "letter"
       false).2 (Or.inr rfl)]
     rfl⟩

/-! ### Output-folder clearing -/

theorem clearLoop_eq (keep_readme : Bool) (d : List OutEntry) :
    clearLoop keep_readme d =
      (d.filter (fun e => !shouldRemove keep_readme e),
       (d.filter (fun e => shouldRemove keep_readme e)).length) := by
  induction d with
  | nil => rfl
  | cons e rest ih =>
    by_cases h : shouldRemove keep_readme e = true
    · simp [clearLoop, ih, h, List.filter_cons]
    · simp only [Bool.not_eq_true] at h
      simp [clearLoop, ih, h, List.filter_cons]

/-- C9: one run of output clearing with README preservation leaves no
deletable entry behind — every remaining non-directory entry other than a
case-insensitive `readme.md` lacks all tracked extensions — so a second run
removes zero files and returns the directory unchanged, and subdirectories
and a case-insensitive `readme.md` always survive. -/
theorem c9_clearing_idempotent (d : List OutEntry) :
    (∀ e ∈ (clear_output_folder d).1, shouldRemove true e = false) ∧
    clear_output_folder (clear_output_folder d).1 =
      ((clear_output_folder d).1, 0) ∧
    (∀ e ∈ d, e.isDir = true ∨ strToLower e.name = "readme.md" →
      e ∈ (clear_output_folder d).1) := by
  refine ⟨?_, ?_, ?_⟩
  · intro e he
    unfold clear_output_folder at he
    rw [clearLoop_eq] at he
    have := List.of_mem_filter he
    simpa using this
  · unfold clear_output_folder
    rw [clearLoop_eq, clearLoop_eq]
    rw [List.filter_filter, List.filter_filter]
    simp
  · intro e he hkeep
    unfold clear_output_folder
    rw [clearLoop_eq]
    apply List.mem_filter.mpr
    refine ⟨he, ?_⟩
    rcases hkeep with hd | hr
    · simp [shouldRemove, hd]
    · simp [shouldRemove, hr]

/-- Witness for C9 on a concrete output directory holding a conversion
artifact, a README, a subdirectory and an untracked file. -/
theorem c9_clearing_idempotent_witness :
    clear_output_folder (clear_output_folder sampleOut).1 =
      ((clear_output_folder sampleOut).1, 0) ∧
    OutEntry.mk "README.md" false "keep" ∈ (clear_output_folder sampleOut).1 ∧
    shouldRemove true ⟨"notes.txt", false, "t"⟩ = false :=
  ⟨(c9_clearing_idempotent sampleOut).2.1,
   (c9_clearing_idempotent sampleOut).2.2 ⟨"README.md", false, "keep"⟩
     (by decide) (Or.inr (by decide)),
   (c9_clearing_idempotent sampleOut).1 ⟨"notes.txt", false, "t"⟩ (by decide)⟩

/-! ### JPEG mode normalization -/

theorem blendChannel_zero (bg c : ℚ) : blendChannel bg c 0 = bg := by
  unfold blendChannel; ring

theorem blendChannel_full (bg c : ℚ) : blendChannel bg c 255 = c := by
  unfold blendChannel; ring

/-- C6: decoding for a JPEG-family target normalizes every alpha-carrying or
palette-indexed mode by compositing onto an opaque white background of the
same pixel dimensions with the (palette-expanded) alpha channel as mask: the
result is plain `RGB` with no alpha channel, fully transparent source pixels
come out opaque white, and fully opaque pixels keep their (palette-expanded)
color. -/
theorem c6_jpeg_mode_normalization (output_format : String) (img : Raster)
    (exif_data : Option (List Nat))
    (hf : strToUpper output_format = "JPG" ∨ strToUpper output_format = "JPEG")
    (hm : img.mode = "RGBA" ∨ img.mode = "LA" ∨ img.mode = "P") :
    (convert_image_to_format img exif_data output_format).1.mode = "RGB" ∧
    (convert_image_to_format img exif_data output_format).1.w = img.w ∧
    (convert_image_to_format img exif_data output_format).1.h = img.h ∧
    (∀ x y, img.srcAlpha x y = 0 →
      (convert_image_to_format img exif_data output_format).1.toRGBPx x y =
        (255, 255, 255)) ∧
    (∀ x y, img.srcAlpha x y = 255 →
      (convert_image_to_format img exif_data output_format).1.toRGBPx x y =
        (if img.mode = "P" then img.convertRGBA else img).toRGBPx x y) := by
  have hc : (convert_image_to_format img exif_data output_format).1 =
      normalizeForJPEG img := by
    unfold convert_image_to_format
    rw [if_pos hf]
  rw [hc]
  cases img with
  | rgb w h px => rcases hm with h1 | h1 | h1 <;> simp [Raster.mode] at h1
  | l w h px => rcases hm with h1 | h1 | h1 <;> simp [Raster.mode] at h1
  | rgba w h px =>
    refine ⟨rfl, rfl, rfl, ?_, ?_⟩
    · intro x y ha
      simp only [Raster.srcAlpha] at ha
      simp [normalizeForJPEG, Raster.mode, pasteOnWhite, Raster.lastBand,
        Raster.toRGBPx, ha, blendChannel_zero]
    · intro x y ha
      simp only [Raster.srcAlpha] at ha
      simp [normalizeForJPEG, Raster.mode, pasteOnWhite, Raster.lastBand,
        Raster.toRGBPx, ha, blendChannel_full]
  | la w h px =>
    refine ⟨rfl, rfl, rfl, ?_, ?_⟩
    · intro x y ha
      simp only [Raster.srcAlpha] at ha
      simp [normalizeForJPEG, Raster.mode, pasteOnWhite, Raster.lastBand,
        Raster.toRGBPx, ha, blendChannel_zero]
    · intro x y ha
      simp only [Raster.srcAlpha] at ha
      simp [normalizeForJPEG, Raster.mode, pasteOnWhite, Raster.lastBand,
        Raster.toRGBPx, ha, blendChannel_full]
  | p w h idx palette =>
    refine ⟨rfl, rfl, rfl, ?_, ?_⟩
    · intro x y ha
      simp only [Raster.srcAlpha] at ha
      simp [normalizeForJPEG, Raster.mode, Raster.convertRGBA, pasteOnWhite,
        Raster.lastBand, Raster.toRGBPx, ha, blendChannel_zero]
    · intro x y ha
      simp only [Raster.srcAlpha] at ha
      simp [normalizeForJPEG, Raster.mode, Raster.convertRGBA, pasteOnWhite,
        Raster.lastBand, Raster.toRGBPx, ha, blendChannel_full]

/-- Witness for C6: a 1×1 fully transparent `RGBA` pixel becomes opaque
white under a `jpg` target. -/
theorem c6_jpeg_mode_normalization_witness :
    (convert_image_to_format
        (Raster.rgba 1 1 (fun _ _ => (10, 20, 30, 0))) none "jpg").1.mode =
      "RGB" ∧
    (convert_image_to_format
        (Raster.rgba 1 1 (fun _ _ => (10, 20, 30, 0))) none "jpg").1.toRGBPx
      0 0 = (255, 255, 255) :=
  ⟨(c6_jpeg_mode_normalization "jpg"
      (Raster.rgba 1 1 (fun _ _ => (10, 20, 30, 0))) none (by decide)
      (Or.inl rfl)).1,
   (c6_jpeg_mode_normalization "jpg"
      (Raster.rgba 1 1 (fun _ _ => (10, 20, 30, 0))) none (by decide)
      (Or.inl rfl)).2.2.2.1 0 0 rfl⟩

/-! ### Collision overwrite -/

theorem takeWhile_append_cons {α : Type} (p : α → Bool) (l1 : List α) (a : α)
    (l2 : List α) (h : ∀ x ∈ l1, p x = true) (ha : p a = false) :
    (l1 ++ a :: l2).takeWhile p = l1 := by
  induction l1 with
  | nil => simp [List.takeWhile_cons, ha]
  | cons b bs ih =>
    have hb : p b = true := h b (List.mem_cons_self b bs)
    simp [List.takeWhile_cons, hb,
      ih (fun x hx => h x (List.mem_cons_of_mem _ hx))]

theorem basename_joinPath {folder n : String} (h : '/' ∉ n.data) :
    basename (joinPath folder n) = n := by
  unfold basename joinPath
  rw [String.data_append, String.data_append]
  rw [List.append_assoc, List.reverse_append, List.reverse_append,
    List.append_assoc]
  have hslash : (("/" : String).data).reverse ++ folder.data.reverse =
      '/' :: folder.data.reverse := rfl
  rw [hslash]
  rw [takeWhile_append_cons _ _ '/' _ ?hall (by simp)]
  · rw [List.reverse_reverse]
  case hall =>
    intro x hx
    have : x ∈ n.data := List.mem_reverse.mp hx
    have hxne : x ≠ '/' := fun he => h (he ▸ this)
    simpa using hxne

theorem sorted_pair_eq {l : List String} {a b : String} (hs : l.Sorted strLeP)
    (hnd : l.Nodup) (hm : ∀ x, x ∈ l ↔ x = a ∨ x = b) (hab : a ≠ b) :
    l = if strLe a b then [a, b] else [b, a] := by
  have hperm : List.Perm l (if strLe a b then [a, b] else [b, a]) := by
    rw [List.perm_ext_iff_of_nodup hnd ?_]
    · intro x
      rw [hm]
      split <;> simp [or_comm]
    · split <;> simp [hab, Ne.symm hab]
  refine List.eq_of_perm_of_sorted hperm hs ?_
  split
  · rename_i hle
    simp [List.sorted_cons, strLeP, hle]
  · rename_i hle
    have := charListLe_total a.data b.data
    have hba : strLe b a = true := by
      rcases this with h1 | h1
      · exact absurd h1 hle
      · exact h1
    simp [List.sorted_cons, strLeP, hba]

theorem batchLoop_two (env : Conv) (output_format : String) (quality : Int)
    (page_size : String) (a b outName : String)
    (hna : stem (basename a) ++ output_ext output_format = outName)
    (hnb : stem (basename b) ++ output_ext output_format = outName)
    (hoa : jobOutcome env output_format quality page_size a = true)
    (hob : jobOutcome env output_format quality page_size b = true) :
    (batchLoop env output_format quality page_size [a, b] (0, 0, [])).2.2 =
      [⟨outName, false, env.render b⟩] := by
  simp only [batchLoop, hoa, hob, if_pos, hna, hnb]
  simp [writeFile]

/-- C4: a batch run over two source files with the same base name but
different (matching) extensions writes both jobs to the one shared output
name, the later job overwriting the earlier: the final output directory
holds exactly one file, whose content is the rendering of whichever source
path sorts last alphabetically. -/
theorem c4_collision_overwrite (env : Conv) (source_folder output_format : String)
    (quality : Int) (page_size : String) (clear_output : Bool) (n1 n2 : String)
    (hm1 : matchesAny n1 = true) (hm2 : matchesAny n2 = true) (hne : n1 ≠ n2)
    (hbase : stem n1 = stem n2) (hs1 : '/' ∉ n1.data) (hs2 : '/' ∉ n2.data)
    (hok1 : jobOutcome env output_format quality page_size
      (joinPath source_folder n1) = true)
    (hok2 : jobOutcome env output_format quality page_size
      (joinPath source_folder n2) = true) :
    (convert_images env [⟨n1, false⟩, ⟨n2, false⟩] source_folder []
        output_format quality page_size clear_output).2 =
      [⟨stem n1 ++ output_ext output_format, false,
        env.render (strMax (joinPath source_folder n1)
          (joinPath source_folder n2))⟩] := by
  have hb1 : basename (joinPath source_folder n1) = n1 := basename_joinPath hs1
  have hb2 : basename (joinPath source_folder n2) = n2 := basename_joinPath hs2
  have hpne : joinPath source_folder n1 ≠ joinPath source_folder n2 :=
    fun h => hne (by rw [← hb1, ← hb2, h])
  have hfiles : get_image_files [⟨n1, false⟩, ⟨n2, false⟩] source_folder =
      if strLe (joinPath source_folder n1) (joinPath source_folder n2) then
        [joinPath source_folder n1, joinPath source_folder n2]
      else [joinPath source_folder n2, joinPath source_folder n1] := by
    refine sorted_pair_eq (sorted_get_image_files _ _)
      (nodup_get_image_files _ _) (fun x => ?_) hpne
    rw [mem_get_image_files]
    constructor
    · rintro ⟨e, he, hma, rfl⟩
      rcases List.mem_cons.mp he with rfl | he2
      · exact Or.inl rfl
      · rcases List.mem_cons.mp he2 with rfl | he3
        · exact Or.inr rfl
        · exact absurd he3 (List.not_mem_nil e)
    · rintro (rfl | rfl)
      · exact ⟨⟨n1, false⟩, by simp, hm1, rfl⟩
      · exact ⟨⟨n2, false⟩, by simp, hm2, rfl⟩
  unfold convert_images
  rw [hfiles]
  have hout1 : (if clear_output then
      (clear_output_folder ([] : List OutEntry)).1 else ([] : List OutEntry)) =
      [] := by
    cases clear_output <;> rfl
  rw [hout1]
  by_cases hle : strLe (joinPath source_folder n1)
      (joinPath source_folder n2) = true
  · rw [if_pos hle]
    have hmax : strMax (joinPath source_folder n1) (joinPath source_folder n2) =
        joinPath source_folder n2 := by
      unfold strMax; rw [if_pos hle]
    rw [hmax]
    simp only [List.isEmpty_cons, Bool.false_eq_true, if_false]
    exact batchLoop_two env output_format quality page_size _ _ _
      (by rw [hb1]) (by rw [hb2, ← hbase]) hok1 hok2
  · rw [if_neg hle]
    have hmax : strMax (joinPath source_folder n1) (joinPath source_folder n2) =
        joinPath source_folder n1 := by
      unfold strMax
      rw [if_neg hle]
    rw [hmax]
    simp only [List.isEmpty_cons, Bool.false_eq_true, if_false]
    exact batchLoop_two env output_format quality page_size _ _ _
      (by rw [hb2, ← hbase]) (by rw [hb1]) hok2 hok1

/-- Witness for C4: `a.jpg` and `a.png` collide on the output name `a.png`;
the content comes from `src/a.png`, the alphabetically later source. -/
theorem c4_collision_overwrite_witness :
    (convert_images envAll [⟨"a.jpg", false⟩, ⟨"a.png", false⟩] "src" []
        "PNG" 95 "LETTER" true).2 = [⟨"a.png", false, "src/a.png"⟩] := by
  have h := c4_collision_overwrite envAll "src" "PNG" 95 "LETTER" true
    "a.jpg" "a.png" (by decide) (by decide) (by decide) (by decide)
    (by decide) (by decide) (by decide) (by decide)
  rw [h]
  rfl

end ConvertHeic
